import Mathlib

/-!
Shallow embedding of the ext-proc aggregation service
(`pkg/server/server.go` of day0ops/ext-proc-service-aggregation).

The pure data flow of the Go server is translated definition by
definition; external effects (gRPC receive/send, the two outbound HTTP
fetches, context cancellation) are made explicit parameters:

* the two backend fetches become oracles mapping the user id to a
  `FetchOutcome` (transport error, decode error, or a decoded record list);
* `zap.Logger.Fatal` — which terminates the whole process — is modelled
  by the `ProcResult.fatal` outcome;
* the bidirectional stream becomes a script of receive results plus a
  cancellation point and a send-success schedule, and `Process` becomes
  `processLoop`, returning the list of decisions sent and how the loop
  terminated.
-/

namespace ExtProc

/-- One entry of an Envoy header map (`corev3.HeaderValue`): a key and a
raw value.  The raw value is a byte string in Go; it is modelled as a
`String`. -/
structure HeaderValue where
  key : String
  rawValue : String
deriving DecidableEq, Repr

/-- `HttpHeaders.Headers.Headers`: an ordered sequence of header entries. -/
abbrev HeaderSet := List HeaderValue

/-- Go's `strings.ToLower` restricted to ASCII case mapping (Lean's
`Char.toLower` lowers exactly the ASCII letters `A`–`Z`; Go's function
agrees with this on all ASCII keys, which is the case the server's fixed
key `userid` exercises). -/
def goToLower (s : String) : String :=
  String.mk (s.toList.map Char.toLower)

/-- `server.go` lines 120–127, `getUserIdFromHeaders`: scan the header
entries in order and return the raw value of the first entry whose
lowercased key is `userid`; return the empty string when none matches. -/
def getUserIdFromHeaders : HeaderSet → String
  | [] => ""
  | n :: rest =>
    if goToLower n.key = "userid" then n.rawValue
    else getUserIdFromHeaders rest

/-- `AlbumResponse` (`server.go` lines 19–23): JSON tags `id`, `userId`,
`title`. -/
structure AlbumResponse where
  id : Int
  userId : Int
  title : String
deriving DecidableEq, Repr

/-- `PostResponse` (`server.go` lines 25–30): JSON tags `id`, `userId`,
`title`, `body`. -/
structure PostResponse where
  id : Int
  userId : Int
  title : String
  body : String
deriving DecidableEq, Repr

/-- Lowercase hexadecimal digit, as used by Go's `encoding/json` for
`\u00xx` escapes. -/
def hexDigit (n : Nat) : Char :=
  if n < 10 then Char.ofNat (48 + n) else Char.ofNat (87 + n)

/-- Go `encoding/json` string-character encoding (with the default HTML
escaping): quote and backslash are backslash-escaped, newline / carriage
return / tab use their two-character escapes, the other control
characters and `<`, `>`, `&` use `\u00xx`, U+2028 and U+2029 are escaped,
and every other character is emitted as itself. -/
def escapeChar (c : Char) : String :=
  if c == '"' then "\\\""
  else if c == '\\' then "\\\\"
  else if c == '\n' then "\\n"
  else if c == '\r' then "\\r"
  else if c == '\t' then "\\t"
  else if c.toNat < 32 || c == '<' || c == '>' || c == '&' then
    "\\u00" ++ String.mk [hexDigit (c.toNat / 16), hexDigit (c.toNat % 16)]
  else if c.toNat == 8232 then "\\u2028"
  else if c.toNat == 8233 then "\\u2029"
  else String.singleton c

/-- Go `encoding/json` rendering of a string value. -/
def quoteString (s : String) : String :=
  "\"" ++ String.join (s.toList.map escapeChar) ++ "\""

/-- `json.Marshal` of one `AlbumResponse`: fields in struct order with
their JSON tags. -/
def marshalAlbum (a : AlbumResponse) : String :=
  "\x7b\"id\":" ++ toString a.id ++ ",\"userId\":" ++ toString a.userId
    ++ ",\"title\":" ++ quoteString a.title ++ "\x7d"

/-- `json.Marshal` of one `PostResponse`. -/
def marshalPost (p : PostResponse) : String :=
  "\x7b\"id\":" ++ toString p.id ++ ",\"userId\":" ++ toString p.userId
    ++ ",\"title\":" ++ quoteString p.title ++ ",\"body\":" ++ quoteString p.body ++ "\x7d"

/-- `json.Marshal` of a non-nil album slice. -/
def marshalAlbums (xs : List AlbumResponse) : String :=
  "[" ++ String.intercalate "," (xs.map marshalAlbum) ++ "]"

/-- `json.Marshal` of a non-nil post slice. -/
def marshalPosts (xs : List PostResponse) : String :=
  "[" ++ String.intercalate "," (xs.map marshalPost) ++ "]"

/-- `json.Marshal` of a post slice that may be nil (`none` models Go's
nil slice, which marshals to `null`; the posts slice stays nil when the
posts decode fails, `server.go` lines 202–207). -/
def marshalPostsOpt : Option (List PostResponse) → String
  | none => "null"
  | some xs => marshalPosts xs

/-- `json.Marshal` of `AggregatedData` (`server.go` lines 32–35 and 238):
an object with the `albums` array followed by the `posts` array.  For the
struct types involved `json.Marshal` cannot fail, so the error branch of
`fetchAggregatedResources` (return `""`) is unreachable and the rendering
is total. -/
def marshalAggregatedData (albums : List AlbumResponse)
    (posts : Option (List PostResponse)) : String :=
  "\x7b\"albums\":" ++ marshalAlbums albums ++ ",\"posts\":" ++ marshalPostsOpt posts ++ "\x7d"

/-- The observable outcome of one backend HTTP call, abstracting
`http.Get` plus `json.NewDecoder(...).Decode`: the transport may fail,
the decode may fail, or a record list is decoded. -/
inductive FetchOutcome (α : Type) where
  | transportError
  | decodeError
  | ok (records : List α)
deriving DecidableEq

/-- Result of running a piece of server code whose Go original may call
`zap.Logger.Fatal`.  `fatal` models `Log.Fatal`, which logs and then
terminates the whole process (`os.Exit(1)`): nothing is returned and no
further decision is ever sent. -/
inductive ProcResult (α : Type) where
  | ok (val : α)
  | fatal
deriving DecidableEq

/-- The backend environment: what each of the two fetch endpoints does
for a given user id. -/
structure FetchEnv where
  albums : String → FetchOutcome AlbumResponse
  posts : String → FetchOutcome PostResponse

/-- `server.go` lines 156–181, `fetchAlbums`: a transport error is
`Log.Fatal` (line 164) and a decode error is also `Log.Fatal` (line 177);
on success the decoded album list is returned. -/
def fetchAlbums (outcome : FetchOutcome AlbumResponse) :
    ProcResult (List AlbumResponse) :=
  match outcome with
  | .transportError => .fatal
  | .decodeError => .fatal
  | .ok xs => .ok xs

/-- `server.go` lines 184–208, `fetchPosts`: a transport error is
`Log.Fatal` (line 192), but a decode error is only `Log.Error`
(line 205) and the function falls through, returning the still-nil
`postResp` slice (modelled by `none`). -/
def fetchPosts (outcome : FetchOutcome PostResponse) :
    ProcResult (Option (List PostResponse)) :=
  match outcome with
  | .transportError => .fatal
  | .decodeError => .ok none
  | .ok xs => .ok (some xs)

/-- `server.go` lines 210–245, `fetchAggregatedResources`: run the two
fetches concurrently for the same id, wait for both at the
`WaitGroup` barrier, fill `AggregatedData` and marshal it.  A `Log.Fatal`
inside either goroutine terminates the process, so the barrier is passed
only when neither fetch was fatal.  (`json.Marshal` cannot fail on
`AggregatedData`, so the branch returning `""` on a marshal error is
dead code and the success string is always produced.) -/
def fetchAggregatedResources (id : String) (env : FetchEnv) : ProcResult String :=
  match fetchAlbums (env.albums id), fetchPosts (env.posts id) with
  | .ok albums, .ok posts => .ok (marshalAggregatedData albums posts)
  | _, _ => .fatal

/-- `CommonResponse.Status`: `CONTINUE` is the protobuf zero value. -/
inductive CommonStatus where
  | CONTINUE
  | CONTINUE_AND_REPLACE
deriving DecidableEq, Repr

/-- `CommonResponse`, keeping only the fields the server sets: the status
and an optional body mutation carrying the replacement body. -/
structure CommonResponse where
  status : CommonStatus
  bodyMutation : Option String
deriving DecidableEq, Repr

/-- `HeadersResponse`: `response = none` is the empty
`&HeadersResponse\x7b\x7d` decision (no mutation, request passes through
unchanged). -/
structure HeadersResponse where
  response : Option CommonResponse
deriving DecidableEq, Repr

/-- A record of one backend fetch having been started (a goroutine
spawned in `fetchAggregatedResources`), used to state that the
no-identifier path performs no fetch at all. -/
inductive FetchCall where
  | albums (id : String)
  | posts (id : String)
deriving DecidableEq, Repr

/-- `server.go` lines 129–153, `aggregateServices`, paired with the list
of backend fetches it starts.  If the extracted user id is empty, the
empty `HeadersResponse` is returned at line 134 and no fetch happens.
Otherwise the status is set to `CONTINUE_AND_REPLACE` (line 143, before
the aggregation runs) and the body mutation carries whatever
`fetchAggregatedResources` produced.  The Go function's `error` return is
`nil` on both of its return paths, so only the in-fetch `Log.Fatal` can
prevent the `.ok` outcome. -/
def aggregateServices (hs : HeaderSet) (env : FetchEnv) :
    ProcResult HeadersResponse × List FetchCall :=
  let userIdString := getUserIdFromHeaders hs
  if userIdString = "" then (.ok ⟨none⟩, [])
  else
    match fetchAggregatedResources userIdString env with
    | .fatal => (.fatal, [.albums userIdString, .posts userIdString])
    | .ok body =>
      (.ok ⟨some ⟨.CONTINUE_AND_REPLACE, some body⟩⟩,
        [.albums userIdString, .posts userIdString])

/-- `ProcessingRequest.Request`: the oneof of event variants received on
the stream (`server.go` lines 75–105).  `unknown` stands for any variant
the type switch does not recognize, including an unset oneof. -/
inductive ProcessingRequest where
  | requestHeaders (headers : HeaderSet)
  | requestBody
  | requestTrailers
  | responseHeaders
  | responseBody
  | responseTrailers
  | unknown
deriving DecidableEq, Repr

/-- `ProcessingResponse`: `empty` is the zero-value
`&ProcessingResponse\x7b\x7d` sent for every variant except
request-headers, which wraps a `HeadersResponse`. -/
inductive ProcessingResponse where
  | empty
  | requestHeaders (resp : HeadersResponse)
deriving DecidableEq, Repr

/-- The response the loop body builds for one received event
(`server.go` lines 74–105): request-headers events go through
`aggregateServices` (a fatal fetch aborts the process); every other
variant, known or unknown, keeps the zero-value response. -/
def buildResponse (req : ProcessingRequest) (env : FetchEnv) :
    ProcResult ProcessingResponse :=
  match req with
  | .requestHeaders h =>
    match (aggregateServices h env).1 with
    | .fatal => .fatal
    | .ok r => .ok (.requestHeaders r)
  | _ => .ok .empty

/-- Whether an event is the request-headers variant (the only variant the
type switch dispatches on beyond logging). -/
def isRequestHeaders : ProcessingRequest → Bool
  | .requestHeaders _ => true
  | _ => false

/-- One result of `srv.Recv()`: an event, a clean end of stream
(`io.EOF`), or a receive failure. -/
inductive RecvResult where
  | event (req : ProcessingRequest)
  | eof
  | failure
deriving DecidableEq, Repr

/-- How a run of the `Process` loop ended. -/
inductive Termination where
  | cancelled
  | closedByPeer
  | recvFailed
  | sendFailed
  | fatalAbort
  | blocked
deriving DecidableEq, Repr

/-- Whether the stream's context has been cancelled at loop iteration
`i`: `cancelAt = some k` means the context becomes (and stays) done from
iteration `k` on; `none` means it is never cancelled. -/
def ctxDone (cancelAt : Option Nat) (i : Nat) : Bool :=
  match cancelAt with
  | none => false
  | some k => k ≤ i

/-- `server.go` lines 54–117, `Process`: each iteration first polls
`ctx.Done()` (the `select` with a `default` arm, lines 57–62), then
receives; `io.EOF` returns `nil` (peer closed), any other receive error
returns a gRPC error; otherwise the response for the event is built —
a `Log.Fatal` inside a fetch aborts the process with nothing sent — and
sent, a send error ending the stream.  The result is the list of
decisions sent, in order, and the way the loop ended (`blocked` means
the script ran out while the loop was still waiting for the next
event). -/
def processLoop (env : FetchEnv) (cancelAt : Option Nat) (sendOk : Nat → Bool)
    (recvs : List RecvResult) (i : Nat) : List ProcessingResponse × Termination :=
  if ctxDone cancelAt i then ([], .cancelled)
  else
    match recvs with
    | [] => ([], .blocked)
    | .eof :: _ => ([], .closedByPeer)
    | .failure :: _ => ([], .recvFailed)
    | .event req :: rest =>
      match buildResponse req env with
      | .fatal => ([], .fatalAbort)
      | .ok resp =>
        if sendOk i then
          let next := processLoop env cancelAt sendOk rest (i + 1)
          (resp :: next.1, next.2)
        else ([], .sendFailed)

/-- The decision actually sent for an event on the paths where the loop
does not abort: the `.ok` payload of `buildResponse` (the `.empty`
fallback is never read under the no-fatal hypotheses of the theorems
using it). -/
def responseFor (req : ProcessingRequest) (env : FetchEnv) : ProcessingResponse :=
  match buildResponse req env with
  | .ok r => r
  | .fatal => .empty

/-- Spec-side contract of the Header Inspector (spec §4.1), written from
the spec's words for comparison with `getUserIdFromHeaders`: scan all
entries and return the raw value of the first entry whose key matches the
fixed identifier key ignoring ASCII case; absent (`none`) if no match. -/
def extractIdentifier (hs : HeaderSet) : Option String :=
  (hs.find? (fun e => goToLower e.key == "userid")).map HeaderValue.rawValue

/-- A benign backend environment (both endpoints answer with an empty
record list), used to instantiate the theorems on concrete inputs. -/
def envW : FetchEnv :=
  ⟨fun _ => .ok [], fun _ => .ok []⟩

lemma getUserId_of_no_match (hs : HeaderSet)
    (h : ∀ e ∈ hs, goToLower e.key ≠ "userid") :
    getUserIdFromHeaders hs = "" := by
  induction hs with
  | nil => rfl
  | cons n rest ih =>
    rw [getUserIdFromHeaders, if_neg (h n (by simp))]
    exact ih fun e he => h e (by simp [he])

lemma getUserId_of_first_match (pre : HeaderSet) (e : HeaderValue) (post : HeaderSet)
    (hpre : ∀ x ∈ pre, goToLower x.key ≠ "userid")
    (he : goToLower e.key = "userid") :
    getUserIdFromHeaders (pre ++ e :: post) = e.rawValue := by
  induction pre with
  | nil => rw [List.nil_append, getUserIdFromHeaders, if_pos he]
  | cons n rest ih =>
    rw [List.cons_append, getUserIdFromHeaders, if_neg (hpre n (by simp))]
    exact ih fun x hx => hpre x (by simp [hx])

lemma extractIdentifier_of_no_match (hs : HeaderSet)
    (h : ∀ e ∈ hs, goToLower e.key ≠ "userid") :
    extractIdentifier hs = none := by
  rw [extractIdentifier, List.find?_eq_none.mpr, Option.map_none']
  intro x hx
  simpa using h x hx

lemma extractIdentifier_of_first_match (pre : HeaderSet) (e : HeaderValue) (post : HeaderSet)
    (hpre : ∀ x ∈ pre, goToLower x.key ≠ "userid")
    (he : goToLower e.key = "userid") :
    extractIdentifier (pre ++ e :: post) = some e.rawValue := by
  induction pre with
  | nil =>
    rw [List.nil_append, extractIdentifier,
      List.find?_cons_of_pos _ (by simpa using he), Option.map_some']
  | cons n rest ih =>
    rw [List.cons_append, extractIdentifier,
      List.find?_cons_of_neg _ (by simpa using hpre n (by simp))]
    simpa [extractIdentifier] using ih fun x hx => hpre x (by simp [hx])

lemma getUserId_refines_extract (hs : HeaderSet) :
    getUserIdFromHeaders hs = (extractIdentifier hs).getD "" := by
  induction hs with
  | nil => rfl
  | cons n rest ih =>
    by_cases h : goToLower n.key = "userid"
    · rw [getUserIdFromHeaders, if_pos h, extractIdentifier,
        List.find?_cons_of_pos _ (by simpa using h), Option.map_some']
      rfl
    · rw [getUserIdFromHeaders, if_neg h, extractIdentifier,
        List.find?_cons_of_neg _ (by simpa using h)]
      exact ih

lemma aggregateServices_of_empty_id (hs : HeaderSet) (env : FetchEnv)
    (h : getUserIdFromHeaders hs = "") :
    aggregateServices hs env = (.ok ⟨none⟩, []) := by
  rw [aggregateServices]
  simp [h]

/-- C2: identifier extraction scans the header entries in order and
returns the raw value of the first entry whose key equals `userid`
ignoring ASCII case; when no entry matches it signals absence (the
`Option`-valued reading returns `none`, which the Go function represents
as the empty string); the keys `UserId`, `USERID` and `userid` all
match. -/
theorem extract_identifier_first_case_insensitive_match :
    (∀ hs : HeaderSet, getUserIdFromHeaders hs = (extractIdentifier hs).getD "")
    ∧ (∀ (pre post : HeaderSet) (e : HeaderValue),
        (∀ x ∈ pre, goToLower x.key ≠ "userid") → goToLower e.key = "userid" →
        getUserIdFromHeaders (pre ++ e :: post) = e.rawValue
          ∧ extractIdentifier (pre ++ e :: post) = some e.rawValue)
    ∧ (∀ hs : HeaderSet, (∀ x ∈ hs, goToLower x.key ≠ "userid") →
        extractIdentifier hs = none ∧ getUserIdFromHeaders hs = "")
    ∧ goToLower ("UserId") = "userid" ∧ goToLower ("USERID") = "userid"
    ∧ goToLower ("userid") = "userid" := by
  refine ⟨getUserId_refines_extract, ?_, ?_, by decide, by decide, by decide⟩
  · intro pre post e hpre he
    exact ⟨getUserId_of_first_match pre e post hpre he,
      extractIdentifier_of_first_match pre e post hpre he⟩
  · intro hs h
    exact ⟨extractIdentifier_of_no_match hs h, getUserId_of_no_match hs h⟩

/-- C2 witness: on a concrete header set the first of two matching
entries wins (mixed case), and a set with no matching key extracts
nothing. -/
theorem extract_identifier_first_case_insensitive_match_witness :
    (getUserIdFromHeaders [⟨"x-a", "1"⟩, ⟨"UserID", "42"⟩, ⟨"userid", "7"⟩] = "42"
      ∧ extractIdentifier [⟨"x-a", "1"⟩, ⟨"UserID", "42"⟩, ⟨"userid", "7"⟩] = some "42")
    ∧ (extractIdentifier [⟨"content-type", "application/json"⟩] = none
      ∧ getUserIdFromHeaders [⟨"content-type", "application/json"⟩] = "") :=
  ⟨extract_identifier_first_case_insensitive_match.2.1 [⟨"x-a", "1"⟩] [⟨"userid", "7"⟩]
      ⟨"UserID", "42"⟩ (by decide) (by decide),
    extract_identifier_first_case_insensitive_match.2.2.1 [⟨"content-type", "application/json"⟩]
      (by decide)⟩

/-- C5: when no header key case-insensitively matches `userid`,
`aggregateServices` returns the empty decision — no status flag, no body
mutation — and starts no backend fetch. -/
theorem missing_identifier_empty_decision_no_fetch (hs : HeaderSet) (env : FetchEnv)
    (h : ∀ e ∈ hs, goToLower e.key ≠ "userid") :
    aggregateServices hs env = (.ok ⟨none⟩, []) :=
  aggregateServices_of_empty_id hs env (getUserId_of_no_match hs h)

/-- C5 witness: a concrete identifier-free header set yields the empty
decision and an empty fetch trace, for any backend environment
instantiated here at `envW`. -/
theorem missing_identifier_empty_decision_no_fetch_witness :
    aggregateServices [⟨"content-type", "application/json"⟩, ⟨"x-b", "3"⟩] envW
      = (.ok ⟨none⟩, []) :=
  missing_identifier_empty_decision_no_fetch _ envW (by decide)

/-- C9: a header whose key matches `userid` but whose raw value is the
empty string is indistinguishable from an absent header: extraction
returns the empty string, so `aggregateServices` returns the empty
decision and starts no fetch. -/
theorem empty_identifier_value_acts_as_absent
    (pre post : HeaderSet) (e : HeaderValue) (env : FetchEnv)
    (h1 : ∀ x ∈ pre, goToLower x.key ≠ "userid")
    (h2 : goToLower e.key = "userid") (h3 : e.rawValue = "") :
    aggregateServices (pre ++ e :: post) env = (.ok ⟨none⟩, []) :=
  aggregateServices_of_empty_id _ env
    (by rw [getUserId_of_first_match pre e post h1 h2, h3])

/-- C9 witness: a concrete header set whose only matching entry has an
empty value produces the empty decision and no fetch. -/
theorem empty_identifier_value_acts_as_absent_witness :
    aggregateServices [⟨"x-a", "1"⟩, ⟨"UserId", ""⟩, ⟨"other", "5"⟩] envW
      = (.ok ⟨none⟩, []) :=
  empty_identifier_value_acts_as_absent [⟨"x-a", "1"⟩] [⟨"other", "5"⟩]
    ⟨"UserId", ""⟩ envW (by decide) (by decide) rfl

/-- C10: whenever the extracted identifier is non-empty and
`aggregateServices` does return a decision, that decision carries status
`CONTINUE_AND_REPLACE` and a body mutation — the original body is never
passed through unchanged on this path. -/
theorem nonempty_identifier_forces_body_replacement
    (hs : HeaderSet) (env : FetchEnv) (r : HeadersResponse) (tr : List FetchCall)
    (hid : getUserIdFromHeaders hs ≠ "")
    (hok : aggregateServices hs env = (.ok r, tr)) :
    ∃ body, r = ⟨some ⟨.CONTINUE_AND_REPLACE, some body⟩⟩ := by
  rw [aggregateServices] at hok
  simp only [hid, if_false, ite_false] at hok
  cases hF : fetchAggregatedResources (getUserIdFromHeaders hs) env with
  | fatal => rw [hF] at hok; simp at hok
  | ok body =>
    rw [hF] at hok
    simp at hok
    exact ⟨body, hok.1.symm⟩

/-- C10 witness: with the identifier header set to `7` and both fetches
succeeding with empty lists, the returned decision replaces the body. -/
theorem nonempty_identifier_forces_body_replacement_witness :
    ∃ body, (⟨some ⟨.CONTINUE_AND_REPLACE, some (marshalAggregatedData [] (some []))⟩⟩
        : HeadersResponse)
      = ⟨some ⟨.CONTINUE_AND_REPLACE, some body⟩⟩ :=
  nonempty_identifier_forces_body_replacement [⟨"userid", "7"⟩] envW
    ⟨some ⟨.CONTINUE_AND_REPLACE, some (marshalAggregatedData [] (some []))⟩⟩
    [.albums "7", .posts "7"] (by decide) (by decide)

/-- C3 evidence: when the albums fetch succeeds and the posts fetch hits
a decode error, the code does not fail the aggregation — it returns a
payload whose `posts` field is `null` and whose `albums` field carries
the successful branch's records, contradicting the all-or-nothing
policy. -/
theorem posts_decode_failure_yields_albums_only_payload :
    fetchAggregatedResources "42"
        ⟨fun _ => .ok [⟨1, 42, "x"⟩], fun _ => .decodeError⟩
      = .ok "\x7b\"albums\":[\x7b\"id\":1,\"userId\":42,\"title\":\"x\"\x7d],\"posts\":null\x7d" := by
  decide

/-- C4 evidence: an albums transport error, an albums decode error, or a
posts transport error each run into `Log.Fatal`, which terminates the
whole process instead of reporting a request-scoped recoverable error. -/
theorem fetch_failures_abort_whole_process :
    fetchAggregatedResources "7" ⟨fun _ => .transportError, fun _ => .ok []⟩ = .fatal
    ∧ fetchAggregatedResources "7" ⟨fun _ => .decodeError, fun _ => .ok []⟩ = .fatal
    ∧ fetchAggregatedResources "7" ⟨fun _ => .ok [], fun _ => .transportError⟩ = .fatal :=
  ⟨rfl, rfl, rfl⟩

/-- C6: scenario A end to end — identifier `42`, one album and one post —
produces `CONTINUE_AND_REPLACE` with exactly the specified JSON body;
in general a doubly successful aggregation marshals the album fetch
result as the `albums` array and the post fetch result as the `posts`
array, element by element in fetch order. -/
theorem scenario_a_and_marshal_round_trip :
    ((aggregateServices [⟨"userid", "42"⟩]
        ⟨fun _ => .ok [⟨1, 42, "x"⟩], fun _ => .ok [⟨9, 42, "y", "z"⟩]⟩).1
      = .ok ⟨some ⟨.CONTINUE_AND_REPLACE,
          some "\x7b\"albums\":[\x7b\"id\":1,\"userId\":42,\"title\":\"x\"\x7d],\"posts\":[\x7b\"id\":9,\"userId\":42,\"title\":\"y\",\"body\":\"z\"\x7d]\x7d"⟩⟩)
    ∧ (∀ (id : String) (env : FetchEnv) (xs : List AlbumResponse) (ys : List PostResponse),
        env.albums id = .ok xs → env.posts id = .ok ys →
        fetchAggregatedResources id env = .ok (marshalAggregatedData xs (some ys)))
    ∧ (∀ xs : List AlbumResponse,
        marshalAlbums xs = "[" ++ String.intercalate "," (xs.map marshalAlbum) ++ "]")
    ∧ (∀ ys : List PostResponse,
        marshalPosts ys = "[" ++ String.intercalate "," (ys.map marshalPost) ++ "]") := by
  refine ⟨by decide, ?_, fun xs => rfl, fun ys => rfl⟩
  intro id env xs ys ha hp
  rw [fetchAggregatedResources, ha, hp]
  rfl

/-- C6 witness: the general round-trip conjunct applied to a concrete
environment with one album and one post. -/
theorem scenario_a_and_marshal_round_trip_witness :
    fetchAggregatedResources "5"
        ⟨fun _ => .ok [⟨2, 5, "a"⟩], fun _ => .ok [⟨3, 5, "b", "c"⟩]⟩
      = .ok (marshalAggregatedData [⟨2, 5, "a"⟩] (some [⟨3, 5, "b", "c"⟩])) :=
  scenario_a_and_marshal_round_trip.2.1 "5"
    ⟨fun _ => .ok [⟨2, 5, "a"⟩], fun _ => .ok [⟨3, 5, "b", "c"⟩]⟩
    [⟨2, 5, "a"⟩] [⟨3, 5, "b", "c"⟩] rfl rfl

lemma processLoop_cancelled_of_done (env : FetchEnv) (sendOk : Nat → Bool)
    (k i : Nat) (recvs : List RecvResult) (h : k ≤ i) :
    processLoop env (some k) sendOk recvs i = ([], .cancelled) := by
  rw [processLoop.eq_def]
  simp [ctxDone, h]

lemma processLoop_length_le (env : FetchEnv) (sendOk : Nat → Bool) (k : Nat) :
    ∀ (recvs : List RecvResult) (i : Nat),
      (processLoop env (some k) sendOk recvs i).1.length ≤ k - i := by
  intro recvs
  induction recvs with
  | nil =>
    intro i
    rw [processLoop.eq_def]
    split <;> simp
  | cons r rest ih =>
    intro i
    by_cases h : k ≤ i
    · rw [processLoop_cancelled_of_done env sendOk k i _ h]
      simp
    · have hc : ctxDone (some k) i = false := by
        simp [ctxDone]
        omega
      rw [processLoop.eq_def, hc]
      cases r with
      | eof => simp
      | failure => simp
      | event req =>
        simp only [Bool.false_eq_true, if_false]
        cases hb : buildResponse req env with
        | fatal => simp
        | ok resp =>
          by_cases hsend : sendOk i = true
          · simp only [hsend, if_true, List.length_cons]
            have := ih (i + 1)
            omega
          · simp [hsend]

/-- C8: each iteration of the `Process` loop polls the context before
receiving, so once the context is done at iteration `i ≥ k` the loop
returns immediately — whatever events are still pending — with no
decision sent; consequently a stream whose context is cancelled from
iteration `k` on never sends more than `k - i` further decisions. -/
theorem cancellation_checked_first_stops_sends (env : FetchEnv)
    (sendOk : Nat → Bool) (k i : Nat) (recvs : List RecvResult) :
    (k ≤ i → processLoop env (some k) sendOk recvs i = ([], .cancelled))
    ∧ (processLoop env (some k) sendOk recvs i).1.length ≤ k - i :=
  ⟨fun h => processLoop_cancelled_of_done env sendOk k i recvs h,
    processLoop_length_le env sendOk k recvs i⟩

/-- C8 witness: a stream cancelled from the start sends nothing even
though an event is pending, and sends at most one decision when
cancelled from iteration 1 on. -/
theorem cancellation_checked_first_stops_sends_witness :
    (processLoop envW (some 0) (fun _ => true) [RecvResult.event .requestBody] 0
      = ([], .cancelled))
    ∧ (processLoop envW (some 1) (fun _ => true)
        [RecvResult.event .requestBody, RecvResult.event .unknown] 0).1.length ≤ 1 - 0 :=
  ⟨(cancellation_checked_first_stops_sends envW (fun _ => true) 0 0
      [RecvResult.event .requestBody]).1 (by decide),
    (cancellation_checked_first_stops_sends envW (fun _ => true) 1 0
      [RecvResult.event .requestBody, RecvResult.event .unknown]).2⟩

/-- C7: every received event other than the request-headers variant —
bodies, trailers, response headers, and unknown/unset variants alike —
is answered with exactly one empty decision, is never a hard failure,
and the loop goes on to process the rest of the stream. -/
theorem non_header_events_get_empty_decision (req : ProcessingRequest)
    (env : FetchEnv) (rest : List RecvResult) (cancelAt : Option Nat)
    (sendOk : Nat → Bool) (i : Nat)
    (hreq : isRequestHeaders req = false)
    (hc : ctxDone cancelAt i = false) (hsend : sendOk i = true) :
    buildResponse req env = .ok .empty
    ∧ processLoop env cancelAt sendOk (RecvResult.event req :: rest) i
      = (.empty :: (processLoop env cancelAt sendOk rest (i + 1)).1,
         (processLoop env cancelAt sendOk rest (i + 1)).2) := by
  have hb : buildResponse req env = .ok .empty := by
    cases req <;> first | rfl | simp [isRequestHeaders] at hreq
  refine ⟨hb, ?_⟩
  rw [processLoop.eq_def, hc]
  simp only [Bool.false_eq_true, if_false, hb, hsend, if_true]

/-- C7 witness: a response-body event on an uncancelled stream gets one
empty decision and the loop continues on the remaining script. -/
theorem non_header_events_get_empty_decision_witness :
    buildResponse ProcessingRequest.responseBody envW = .ok .empty
    ∧ processLoop envW none (fun _ => true)
        (RecvResult.event .responseBody :: [RecvResult.eof]) 0
      = (.empty :: (processLoop envW none (fun _ => true) [RecvResult.eof] (0 + 1)).1,
         (processLoop envW none (fun _ => true) [RecvResult.eof] (0 + 1)).2) :=
  non_header_events_get_empty_decision ProcessingRequest.responseBody envW
    [RecvResult.eof] none (fun _ => true) 0 rfl rfl rfl

/-- C1: as long as the stream is not cancelled, sends succeed and no
fetch goes fatal, the loop sends exactly one decision per received
event, in event order: after the `N` events of `es` (of any mix of
variants) the decisions sent are precisely `responseFor` of each event,
in the same order, and the loop continues on the rest of the script. -/
theorem process_sends_one_decision_per_event (env : FetchEnv)
    (es : List ProcessingRequest) (rest : List RecvResult) (i : Nat)
    (h : ∀ e ∈ es, buildResponse e env ≠ .fatal) :
    processLoop env none (fun _ => true) (es.map RecvResult.event ++ rest) i
      = (es.map (fun e => responseFor e env)
          ++ (processLoop env none (fun _ => true) rest (i + es.length)).1,
         (processLoop env none (fun _ => true) rest (i + es.length)).2) := by
  induction es generalizing i with
  | nil => simp
  | cons e es ih =>
    have he := h e (by simp)
    rw [List.map_cons, List.cons_append, processLoop]
    simp only [ctxDone, Bool.false_eq_true, if_false]
    cases hb : buildResponse e env with
    | fatal => exact absurd hb he
    | ok resp =>
      simp only [if_true]
      rw [ih (i + 1) fun x hx => h x (by simp [hx])]
      have hlen : i + 1 + es.length = i + (es.length + 1) := by omega
      rw [hlen]
      simp [responseFor, hb]

/-- C1 witness: a stream of three events of mixed variants (a body
event, a request-headers event carrying the identifier, an unknown
event) receives exactly three decisions, in order. -/
theorem process_sends_one_decision_per_event_witness :
    processLoop envW none (fun _ => true)
        ([ProcessingRequest.requestBody,
          .requestHeaders [⟨"userid", "42"⟩], .unknown].map RecvResult.event
          ++ [RecvResult.eof]) 0
      = ([ProcessingRequest.requestBody,
          .requestHeaders [⟨"userid", "42"⟩], .unknown].map (fun e => responseFor e envW)
          ++ (processLoop envW none (fun _ => true) [RecvResult.eof]
              (0 + [ProcessingRequest.requestBody,
                .requestHeaders [⟨"userid", "42"⟩], .unknown].length)).1,
         (processLoop envW none (fun _ => true) [RecvResult.eof]
            (0 + [ProcessingRequest.requestBody,
              .requestHeaders [⟨"userid", "42"⟩], .unknown].length)).2) :=
  process_sends_one_decision_per_event envW
    [ProcessingRequest.requestBody, .requestHeaders [⟨"userid", "42"⟩], .unknown]
    [RecvResult.eof] 0 (by decide)

end ExtProc
